import Mathlib

/-!
AntiWipe: interception decision engine and confirmation protocol.

A shallow embedding of `src/main.c` (the AntiWipe kernel module) and theorems
about its policy matcher, its three hook handlers and its volume-key
confirmation protocol.

Conventions of the embedding:

* a C string is the list of its bytes up to, and not including, the
  terminating NUL; a `const char *` argument is an `Option` of such a list,
  `none` being the NULL pointer;
* C `int` values are `Int`; a 64-bit register is a `Nat`, and the cast
  `(int)` of a register is the explicit two's-complement truncation `to_int`;
* the three module-level variables (`waiting_for_input`, `user_confirmed`,
  `confirm_mutex`) and the kernel log form an explicit `State` that is passed
  through the stateful functions.
-/

namespace AntiWipe

/-! ## Constants of the kernel headers used by `main.c` -/

/-- The module name, `#define MODULE_NAME "AntiWipe"`. -/
def MODULE_NAME : List Char := "AntiWipe".toList

/-- Linux `PATH_MAX` (`include/uapi/linux/limits.h`). -/
def PATH_MAX : Nat := 4096

/-- Linux `EACCES` (`include/uapi/asm-generic/errno-base.h`). -/
def EACCES : Int := 13

/-- Linux `EFAULT` (`include/uapi/asm-generic/errno-base.h`). -/
def EFAULT : Int := 14

/-- Linux `O_WRONLY` (`include/uapi/asm-generic/fcntl.h`). -/
def O_WRONLY : Int := 1

/-- Linux `O_RDWR` (`include/uapi/asm-generic/fcntl.h`). -/
def O_RDWR : Int := 2

/-- Linux `EV_KEY` (`include/uapi/linux/input-event-codes.h`). -/
def EV_KEY : Nat := 1

/-- Linux `KEY_VOLUMEDOWN` (`include/uapi/linux/input-event-codes.h`). -/
def KEY_VOLUMEDOWN : Nat := 114

/-- Linux `KEY_VOLUMEUP` (`include/uapi/linux/input-event-codes.h`). -/
def KEY_VOLUMEUP : Nat := 115

/-- Linux `NOTIFY_OK` (`include/linux/notifier.h`). -/
def NOTIFY_OK : Int := 1

/-! ## Kernel string routines called by the matchers -/

/-- Kernel `memcmp(cs, ct, count)`: walks the two areas byte by byte and
returns the difference of the first pair of bytes that differ, `0` when the
first `count` bytes agree.  The last equation (an area shorter than `count`)
is never reached from `strstr`, which compares only when `l1 >= l2`. -/
def memcmp : List Char → List Char → Nat → Int
  | _, _, 0 => 0
  | a :: cs, b :: ct, n + 1 =>
    if a ≠ b then (a.toNat : Int) - (b.toNat : Int) else memcmp cs ct n
  | _, _, _ + 1 => 0

/-- The loop of kernel `strstr`:
`while (l1 >= l2) { l1--; if (!memcmp(s1, s2, l2)) return s1; s1++; } return NULL;`
where `l1` is the length of what is left of `s1`.  It is entered with
`l2 > 0`, so an exhausted `s1` fails the loop test. -/
def strstr_loop (s2 : List Char) : List Char → Option (List Char)
  | [] => none
  | c :: cs =>
    if (c :: cs).length ≥ s2.length then
      if memcmp (c :: cs) s2 s2.length = 0 then some (c :: cs)
      else strstr_loop s2 cs
    else none

/-- Kernel `strstr(s1, s2)` (`lib/string.c`): a pointer to the first
occurrence of `s2` in `s1` (here: the rest of `s1` from that occurrence on),
`none` for NULL.  `l2 = strlen(s2); if (!l2) return s1;` then the loop. -/
def strstr (s1 s2 : List Char) : Option (List Char) :=
  if s2.length = 0 then some s1 else strstr_loop s2 s1

/-! ## Policy matcher -/

/-- The table `dangerous_partitions[]`: 23 tokens followed by the `NULL`
sentinel. -/
def dangerous_partitions : List (Option (List Char)) :=
  [ some "persist".toList, some "vm-persist".toList, some "modem_a".toList,
    some "modem_b".toList,
    some "modemst1".toList, some "modemst2".toList, some "fsg".toList,
    some "fsc".toList,
    some "abl_a".toList, some "abl_b".toList, some "featenabler_a".toList,
    some "featenabler_b".toList,
    some "xbl_a".toList, some "xbl_b".toList, some "xbl_config_a".toList,
    some "xbl_config_b".toList,
    some "xbl_ramdump_a".toList, some "xbl_ramdump_b".toList,
    some "xbl_sc_logs".toList,
    some "xbl_sc_test_mode".toList, some "vendor_boot_a".toList,
    some "vendor_boot_b".toList, some "ocdt".toList,
    none ]

/-- The table `dangerous_commands[]`: four tokens followed by the `NULL`
sentinel. -/
def dangerous_commands : List (Option (List Char)) :=
  [ some "dd".toList, some "mkfs".toList, some "format".toList,
    some "wipe".toList, none ]

/-- The loop shared by both matchers,
`for (i = 0; table[i]; i++) { if (strstr(subject, table[i])) return true; } return false;`
run on what is left of the table from index `i` on.  The loop stops at the
`NULL` sentinel (`none`); both tables end with one, so the empty-list
equation is not reached. -/
def match_loop (subject : List Char) : List (Option (List Char)) → Bool
  | [] => false
  | none :: _ => false
  | some tok :: rest =>
    if (strstr subject tok).isSome then true else match_loop subject rest

/-- `static bool is_dangerous_partition(const char *path)`. -/
def is_dangerous_partition (path : Option (List Char)) : Bool :=
  match path with
  | none => false
  | some p => match_loop p dangerous_partitions

/-- `static bool is_dangerous_command(const char *cmd)`. -/
def is_dangerous_command (cmd : Option (List Char)) : Bool :=
  match cmd with
  | none => false
  | some c => match_loop c dangerous_commands

/-- The tokens of a `NULL`-terminated table: the entries before the first
`NULL`. -/
def tokens : List (Option (List Char)) → List (List Char)
  | [] => []
  | none :: _ => []
  | some tok :: rest => tok :: tokens rest

/-! ## Module state and kernel log -/

/-- Severity of a kernel log line (`pr_info`, `pr_warn`, `pr_err`). -/
inductive LogLevel where
  | info
  | warn
  | err
deriving DecidableEq, Repr

/-- The mutable state of the module: the two flags
`static bool waiting_for_input`, `static bool user_confirmed`, the mutex
`confirm_mutex` (`true` when held) and the kernel log written so far. -/
structure State where
  waiting_for_input : Bool
  user_confirmed : Bool
  confirm_mutex : Bool
  klog : List (LogLevel × List Char)
deriving DecidableEq, Repr

/-- The state at module load: `waiting_for_input = false`,
`user_confirmed = false`, `DEFINE_MUTEX(confirm_mutex)` (unlocked). -/
def State.init : State :=
  { waiting_for_input := false, user_confirmed := false, confirm_mutex := false, klog := [] }

/-- Appends one formatted line to the kernel log. -/
def printk (lvl : LogLevel) (msg : List Char) (s : State) : State :=
  { s with klog := s.klog ++ [(lvl, msg)] }

/-- `mutex_lock(&confirm_mutex)`: takes the mutex when it is free; on a held
mutex the caller blocks, which in this sequential embedding is `none`. -/
def mutex_lock (s : State) : Option State :=
  if s.confirm_mutex then none else some { s with confirm_mutex := true }

/-- `mutex_unlock(&confirm_mutex)`. -/
def mutex_unlock (s : State) : State :=
  { s with confirm_mutex := false }

/-! ## Volume-key notifier -/

/-- The fields of `struct input_event` read by the notifier
(`__u16 type`, `__u16 code`, `__s32 value`). -/
structure input_event where
  type : Nat
  code : Nat
  value : Int
deriving DecidableEq, Repr

/-- `static int volume_key_notifier(struct notifier_block *nb, unsigned long code, void *data)`
with `event = data`; the arguments `nb` and `code` are not read by the body. -/
def volume_key_notifier (event : input_event) (s : State) : Int × State :=
  if !s.waiting_for_input then (NOTIFY_OK, s)
  else
    if event.type = EV_KEY then
      if event.code = KEY_VOLUMEUP ∧ event.value = 1 then
        let s1 := { s with user_confirmed := true }
        let s2 := { s1 with waiting_for_input := false }
        (NOTIFY_OK,
          printk .info ("[".toList ++ MODULE_NAME ++ "] User confirmed operation\n".toList) s2)
      else if event.code = KEY_VOLUMEDOWN ∧ event.value = 1 then
        let s1 := { s with user_confirmed := false }
        let s2 := { s1 with waiting_for_input := false }
        (NOTIFY_OK,
          printk .info ("[".toList ++ MODULE_NAME ++ "] User denied operation\n".toList) s2)
      else (NOTIFY_OK, s)
    else (NOTIFY_OK, s)

/-- Delivery of a batch of input events, in order, each through
`volume_key_notifier`. -/
def deliver (events : List input_event) (s : State) : State :=
  events.foldl (fun st e => (volume_key_notifier e st).2) s

/-! ## Confirmation wait -/

/-- The poll loop `while (timeout-- > 0 && waiting_for_input) { msleep(100); }`.
The first argument is the value of `timeout` before the test (the counter is
only ever compared with `0`), the second the number of `msleep(100)` calls
made so far.  `sched k` is the batch of key events delivered, through
`volume_key_notifier`, during call number `k` (counted from `0`) of
`msleep(100)`.  Returns the number of `msleep(100)` calls made and the state
when the loop ends. -/
def wait_loop (sched : Nat → List input_event) : Nat → Nat → State → Nat × State
  | 0, k, s => (k, s)
  | t + 1, k, s =>
    if s.waiting_for_input then wait_loop sched t (k + 1) (deliver (sched k) s)
    else (k, s)

/-- What a call of `wait_for_user_confirmation` produces: the returned
`result`, the number of `msleep(100)` calls of its poll loop, and the module
state on return. -/
structure WaitOutcome where
  result : Bool
  polls : Nat
  state : State
deriving DecidableEq, Repr

/-- `static bool wait_for_user_confirmation(const char *operation)`, with key
events delivered between the poll steps as given by `sched`. -/
def wait_for_user_confirmation (operation : List Char) (sched : Nat → List input_event)
    (s : State) : Option WaitOutcome :=
  let timeout : Nat := 50
  match mutex_lock s with
  | none => none
  | some s1 =>
    let s2 := { s1 with waiting_for_input := true }
    let s3 := { s2 with user_confirmed := false }
    let s4 := printk .warn ("[".toList ++ MODULE_NAME ++
      "] Dangerous operation detected: ".toList ++ operation ++ "\n".toList) s3
    let s5 := printk .warn ("[".toList ++ MODULE_NAME ++
      "] Press Volume+ to confirm, Volume- to deny (5s timeout)\n".toList) s4
    let (polls, s6) := wait_loop sched timeout 0 s5
    let s7 := { s6 with waiting_for_input := false }
    let result := s7.user_confirmed
    some { result := result, polls := polls, state := mutex_unlock s7 }

/-! ## Hook handlers -/

/-- The register file `struct pt_regs`: `regs[i]` is a 64-bit value. -/
structure pt_regs where
  regs : Nat → Nat

/-- The cast `(int)` of a 64-bit register: the low 32 bits, read as a
two's-complement number. -/
def to_int (r : Nat) : Int :=
  let m : Nat := r % 2 ^ 32
  if m < 2 ^ 31 then (m : Int) else (m : Int) - 2 ^ 32

/-- What the kernel side of one hook call looks like.
`kmalloc` is the outcome of `kmalloc(PATH_MAX, GFP_KERNEL)`: `none` for NULL,
`some adj` for a buffer of `PATH_MAX` bytes, `adj` being the bytes found in
kernel memory right after the buffer, up to the first NUL there.
`user a` is the NUL-terminated string readable at user address `a`, `none`
when the read faults. -/
structure Kernel where
  kmalloc : Option (List Char)
  user : Nat → Option (List Char)

/-- Kernel `strncpy_from_user(dst, src, count)`: returns `-EFAULT` when the
read faults; copies the string with its NUL and returns its length when that
is below `count`; otherwise copies `count` bytes, writes no NUL, and returns
`count`.  The second component is the C string that then starts at `dst`: in
the last case it runs on into `adj`, the bytes after the buffer.  On a fault
the buffer contents are unspecified (no caller reads them; the model gives
the empty string). -/
def strncpy_from_user (src : Option (List Char)) (count : Nat) (adj : List Char) :
    Int × List Char :=
  match src with
  | none => (-EFAULT, [])
  | some str =>
    if str.length < count then ((str.length : Int), str)
    else ((count : Int), str.take count ++ adj)

/-- `static int hook_sys_open(struct kprobe *p, struct pt_regs *regs)`;
`p` is not read.  Returns `ret` and the state (the log may grow). -/
def hook_sys_open (K : Kernel) (regs : pt_regs) (s : State) : Int × State :=
  let filename := regs.regs 0
  let flags : Int := to_int (regs.regs 1)
  match K.kmalloc with
  | none => (0, s)
  | some adj =>
    let (n, kname) := strncpy_from_user (K.user filename) PATH_MAX adj
    if n > 0 then
      if Int.land flags O_WRONLY ≠ 0 ∨ Int.land flags O_RDWR ≠ 0 then
        if is_dangerous_partition (some kname) then
          (-EACCES, printk .err ("[".toList ++ MODULE_NAME ++
            "] Blocked write access to dangerous partition: ".toList ++ kname ++ "\n".toList) s)
        else (0, s)
      else (0, s)
    else (0, s)

/-- `snprintf(msg, sizeof(msg), "Execute dangerous command: %s", kname)` with
`char msg[256]`: at most 255 bytes of the formatted text are kept. -/
def execve_msg (kname : List Char) : List Char :=
  ("Execute dangerous command: ".toList ++ kname).take 255

/-- `static int hook_sys_execve(struct kprobe *p, struct pt_regs *regs)`;
`p` is not read.  `sched` gives the key events delivered during the
confirmation wait, when one is started.  `none` when the call blocks on
`confirm_mutex`. -/
def hook_sys_execve (K : Kernel) (sched : Nat → List input_event) (regs : pt_regs)
    (s : State) : Option (Int × State) :=
  let filename := regs.regs 0
  match K.kmalloc with
  | none => some (0, s)
  | some adj =>
    let (n, kname) := strncpy_from_user (K.user filename) PATH_MAX adj
    if n > 0 then
      if is_dangerous_command (some kname) then
        let msg := execve_msg kname
        match wait_for_user_confirmation msg sched s with
        | none => none
        | some w =>
          if !w.result then
            some (-EACCES, printk .err ("[".toList ++ MODULE_NAME ++
              "] User denied execution of: ".toList ++ kname ++ "\n".toList) w.state)
          else some (0, w.state)
      else some (0, s)
    else some (0, s)

/-- `static int hook_sys_unlink(struct kprobe *p, struct pt_regs *regs)`;
`p` is not read. -/
def hook_sys_unlink (K : Kernel) (regs : pt_regs) (s : State) : Int × State :=
  let pathname := regs.regs 0
  match K.kmalloc with
  | none => (0, s)
  | some adj =>
    let (n, kname) := strncpy_from_user (K.user pathname) PATH_MAX adj
    if n > 0 then
      if (strstr kname "/dev/input/".toList).isSome then
        (-EACCES, printk .err ("[".toList ++ MODULE_NAME ++
          "] Blocked deletion of input device: ".toList ++ kname ++ "\n".toList) s)
      else (0, s)
    else (0, s)

/-! ## Module initialisation -/

/-- The version string, `#define MODULE_VERSION "1.0.0"`. -/
def MODULE_VERSION : List Char := "1.0.0".toList

/-- The three functions that `kpm_init` installs as `pre_handler`. -/
inductive Handler where
  | hook_sys_open
  | hook_sys_execve
  | hook_sys_unlink
deriving DecidableEq, Repr

/-- The fields of `struct kprobe` that `kpm_init` fills in. -/
structure kprobe where
  symbol_name : List Char
  pre_handler : Handler
deriving DecidableEq, Repr

/-- What a call of `kpm_init` produces: the returned value, the probes passed
to `register_kprobe`, in call order, and the module state (the log) on
return. -/
structure InitOutcome where
  ret : Int
  attempts : List kprobe
  state : State
deriving DecidableEq, Repr

/-- One call `register_kprobe(&kp)`: the probe is recorded among the
attempts made so far, and the kernel's return value for it is handed back. -/
def call_register_kprobe (register_kprobe : kprobe → Int) (kp : kprobe)
    (attempts : List kprobe) : Int × List kprobe :=
  (register_kprobe kp, attempts ++ [kp])

/-- `int kpm_init(void)`.  The kernel's `register_kprobe` is a parameter: its
return value for each probe (negative on failure).  Only the first call's
return value is stored (in `ret`) and tested; the other four are discarded. -/
def kpm_init (register_kprobe : kprobe → Int) (s : State) : InitOutcome :=
  let s0 := printk .info ("[".toList ++ MODULE_NAME ++ "] Initializing module v".toList ++
    MODULE_VERSION ++ "\n".toList) s
  let kp_sys_open : kprobe :=
    { symbol_name := "sys_open".toList, pre_handler := Handler.hook_sys_open }
  let (ret, a1) := call_register_kprobe register_kprobe kp_sys_open []
  let s1 :=
    if ret < 0 then
      printk .err ("[".toList ++ MODULE_NAME ++
        "] Failed to register kprobe for sys_open\n".toList) s0
    else s0
  let kp_sys_openat : kprobe :=
    { symbol_name := "sys_openat".toList, pre_handler := Handler.hook_sys_open }
  let (_, a2) := call_register_kprobe register_kprobe kp_sys_openat a1
  let kp_sys_execve : kprobe :=
    { symbol_name := "sys_execve".toList, pre_handler := Handler.hook_sys_execve }
  let (_, a3) := call_register_kprobe register_kprobe kp_sys_execve a2
  let kp_sys_unlink : kprobe :=
    { symbol_name := "sys_unlink".toList, pre_handler := Handler.hook_sys_unlink }
  let (_, a4) := call_register_kprobe register_kprobe kp_sys_unlink a3
  let kp_sys_unlinkat : kprobe :=
    { symbol_name := "sys_unlinkat".toList, pre_handler := Handler.hook_sys_unlink }
  let (_, a5) := call_register_kprobe register_kprobe kp_sys_unlinkat a4
  let s2 := printk .info ("[".toList ++ MODULE_NAME ++ "] Module loaded successfully\n".toList) s1
  { ret := 0, attempts := a5, state := s2 }

/-- The call `p->pre_handler(p, regs)` made when a probe fires. -/
def run_pre_handler (h : Handler) (K : Kernel) (sched : Nat → List input_event)
    (regs : pt_regs) (s : State) : Option (Int × State) :=
  match h with
  | Handler.hook_sys_open => some (hook_sys_open K regs s)
  | Handler.hook_sys_execve => hook_sys_execve K sched regs s
  | Handler.hook_sys_unlink => some (hook_sys_unlink K regs s)

/-- The handler that `kpm_init` installs on the kernel symbol `symbol`, if it
installs one. -/
def installed_handler (symbol : List Char) : Option Handler :=
  ((kpm_init (fun _ => 0) State.init).attempts.find?
    (fun kp => decide (kp.symbol_name = symbol))).map kprobe.pre_handler

/-- The registers at entry of a system call with the given first three
arguments: argument `i` of the call is in `regs[i]`. -/
def syscall_regs (arg0 arg1 arg2 : Nat) : pt_regs :=
  { regs := fun i => if i = 0 then arg0 else if i = 1 then arg1 else if i = 2 then arg2 else 0 }

/-- Linux `AT_FDCWD` (`-100`) as the 64-bit register value it is passed in. -/
def AT_FDCWD : Nat := 2 ^ 64 - 100

/-- A kernel in which the allocation succeeds, the user address `addr` holds
the string `path` and every other user address faults. -/
def kernel_at (addr : Nat) (path : List Char) : Kernel :=
  { kmalloc := some [], user := fun a => if a = addr then some path else none }

/-! ## Two confirmation requests on two execution contexts -/

/-- Program points of `wait_for_user_confirmation`: each names the statement
that the call executes next (`lock`: line 77 `mutex_lock`; `set_waiting`:
line 78; `clear_confirmed`: line 79; `warn_operation`, `warn_keys`: lines 81
and 82; `test`: the loop condition of line 84; `sleep`: `msleep(100)`, line 85;
`clear_waiting`: line 88; `read_result`: line 89; `unlock`: line 90; `done`:
the call has returned `result`). -/
inductive Pc where
  | lock
  | set_waiting
  | clear_confirmed
  | warn_operation
  | warn_keys
  | test
  | sleep
  | clear_waiting
  | read_result
  | unlock
  | done
deriving DecidableEq, Repr

/-- One call of `wait_for_user_confirmation` in progress: its argument, its
program point and its locals `timeout` and `result`. -/
structure Call where
  operation : List Char
  pc : Pc
  timeout : Int
  result : Bool
deriving DecidableEq, Repr

/-- A call that has just been entered: `int timeout = 50`, nothing executed
yet (`result` is not assigned before line 89). -/
def Call.start (operation : List Char) : Call :=
  { operation := operation, pc := Pc.lock, timeout := 50, result := false }

/-- One statement of `wait_for_user_confirmation`, executed by the call `c` on
the shared module state `g`.  A call at `mutex_lock` whose mutex is held stays
where it is; a call that has returned does nothing. -/
def call_step (c : Call) (g : State) : Call × State :=
  match c.pc with
  | Pc.lock =>
    match mutex_lock g with
    | none => (c, g)
    | some g1 => ({ c with pc := Pc.set_waiting }, g1)
  | Pc.set_waiting =>
    ({ c with pc := Pc.clear_confirmed }, { g with waiting_for_input := true })
  | Pc.clear_confirmed =>
    ({ c with pc := Pc.warn_operation }, { g with user_confirmed := false })
  | Pc.warn_operation =>
    ({ c with pc := Pc.warn_keys },
      printk .warn ("[".toList ++ MODULE_NAME ++
        "] Dangerous operation detected: ".toList ++ c.operation ++ "\n".toList) g)
  | Pc.warn_keys =>
    ({ c with pc := Pc.test },
      printk .warn ("[".toList ++ MODULE_NAME ++
        "] Press Volume+ to confirm, Volume- to deny (5s timeout)\n".toList) g)
  | Pc.test =>
    if c.timeout > 0 then
      if g.waiting_for_input then ({ c with timeout := c.timeout - 1, pc := Pc.sleep }, g)
      else ({ c with timeout := c.timeout - 1, pc := Pc.clear_waiting }, g)
    else ({ c with timeout := c.timeout - 1, pc := Pc.clear_waiting }, g)
  | Pc.sleep => ({ c with pc := Pc.test }, g)
  | Pc.clear_waiting =>
    ({ c with pc := Pc.read_result }, { g with waiting_for_input := false })
  | Pc.read_result => ({ c with result := g.user_confirmed, pc := Pc.unlock }, g)
  | Pc.unlock => ({ c with pc := Pc.done }, mutex_unlock g)
  | Pc.done => (c, g)

/-- Two calls of `wait_for_user_confirmation` on two execution contexts and
the module state they share. -/
structure System where
  first : Call
  second : Call
  shared : State
deriving DecidableEq, Repr

/-- What can happen next: the first call executes its next statement, the
second call executes its next statement, or a key event is delivered through
`volume_key_notifier`. -/
inductive Action where
  | first
  | second
  | key (e : input_event)
deriving DecidableEq, Repr

/-- One action on the system. -/
def system_step (a : Action) (σ : System) : System :=
  match a with
  | Action.first =>
    { σ with first := (call_step σ.first σ.shared).1, shared := (call_step σ.first σ.shared).2 }
  | Action.second =>
    { σ with second := (call_step σ.second σ.shared).1,
             shared := (call_step σ.second σ.shared).2 }
  | Action.key e => { σ with shared := (volume_key_notifier e σ.shared).2 }

/-- An interleaving: the actions applied one after the other. -/
def run (acts : List Action) (σ : System) : System :=
  acts.foldl (fun st a => system_step a st) σ

/-- The interleaving `acts` with every step of the second call left out. -/
def without_second (acts : List Action) : List Action :=
  acts.filter (fun a => decide (a ≠ Action.second))

/-! ## Vocabulary of the properties -/

/-- A volume key-down event: type `EV_KEY`, value `1`, code `KEY_VOLUMEUP` or
`KEY_VOLUMEDOWN`. -/
def is_volume_key_down (e : input_event) : Bool :=
  decide (e.type = EV_KEY ∧ e.value = 1 ∧ (e.code = KEY_VOLUMEUP ∨ e.code = KEY_VOLUMEDOWN))

/-- The events of the batches `sched k, sched (k+1), ..., sched (k+t-1)`, in
order of delivery: what arrives during `t` consecutive `msleep(100)` calls
starting with call number `k`. -/
def polled_events (sched : Nat → List input_event) (k : Nat) : Nat → List input_event
  | 0 => []
  | t + 1 => sched k ++ polled_events sched (k + 1) t

/-- The first response among the events of the 50 poll steps of one wait: the
first volume key-down event, if there is one. -/
def first_response (sched : Nat → List input_event) : Option input_event :=
  (polled_events sched 0 50).find? is_volume_key_down

/-- The state in which the poll loop of `wait_for_user_confirmation` starts:
mutex taken, `waiting_for_input = true`, `user_confirmed = false`, the two
`pr_warn` lines printed. -/
def prompted (operation : List Char) (s : State) : State :=
  printk .warn ("[".toList ++ MODULE_NAME ++
      "] Press Volume+ to confirm, Volume- to deny (5s timeout)\n".toList)
    (printk .warn ("[".toList ++ MODULE_NAME ++
      "] Dangerous operation detected: ".toList ++ operation ++ "\n".toList)
      { s with confirm_mutex := true, waiting_for_input := true, user_confirmed := false })

/-- A key-down event of the Volume+ key. -/
def volume_up_press : input_event := { type := EV_KEY, code := KEY_VOLUMEUP, value := 1 }

/-- A key-down event of the Volume- key. -/
def volume_down_press : input_event := { type := EV_KEY, code := KEY_VOLUMEDOWN, value := 1 }

/-- A kernel in which the allocation succeeds and every user address holds
the string `path`. -/
def kernel_with (path : List Char) : Kernel :=
  { kmalloc := some [], user := fun _ => some path }

/-- Registers with `regs[1] = r1` and the user address `4096` in all others. -/
def regs_with (r1 : Nat) : pt_regs :=
  { regs := fun i => if i = 1 then r1 else 4096 }

/-- A schedule that delivers the batch `events` during `msleep(100)` call
number `k` and nothing otherwise. -/
def schedule_at (k : Nat) (events : List input_event) : Nat → List input_event :=
  fun i => if i = k then events else []

/-- A `register_kprobe` that fails, with `-EINVAL` (`-22`), for the probe on
`symbol` and succeeds for every other probe. -/
def fail_only (symbol : List Char) : kprobe → Int :=
  fun kp => if kp.symbol_name = symbol then -22 else 0

/-- Two requests that have both just been entered, on the shared state `g`. -/
def two_calls (op1 op2 : List Char) (g : State) : System :=
  { first := Call.start op1, second := Call.start op2, shared := g }

/-- The relation kept between an interleaving (`σ`) and the same interleaving
without the steps of the second call (`τ`): the first call is in the same
local state in both and has taken the mutex; and until it has returned, the
shared state is the same in both, the mutex is held and the second call still
stands at its `mutex_lock`. -/
def undisturbed (σ τ : System) : Prop :=
  σ.first = τ.first ∧ σ.first.pc ≠ Pc.lock ∧
  (σ.first.pc ≠ Pc.done →
    σ.shared = τ.shared ∧ σ.shared.confirm_mutex = true ∧ σ.second.pc = Pc.lock)

/-! ## Theorems -/

theorem memcmp_eq_zero_iff (cs ct : List Char) (n : Nat)
    (h1 : n ≤ cs.length) (h2 : n ≤ ct.length) :
    memcmp cs ct n = 0 ↔ cs.take n = ct.take n := by
  induction n generalizing cs ct with
  | zero => simp [memcmp]
  | succ n ih =>
    cases cs with
    | nil => simp at h1
    | cons a cs =>
      cases ct with
      | nil => simp at h2
      | cons b ct =>
        simp only [List.length_cons, Nat.add_le_add_iff_right] at h1 h2
        by_cases hab : a = b
        · subst hab
          simp [memcmp, ih cs ct h1 h2]
        · have hne : a.toNat ≠ b.toNat := fun h => hab (Char.ext (UInt32.ext (by
            simpa [Char.toNat, UInt32.toNat] using h)))
          simp only [memcmp, ne_eq, hab, not_false_eq_true, if_true, List.take_succ_cons,
            List.cons.injEq, false_and, iff_false]
          omega

theorem strstr_loop_isSome (s2 s1 : List Char) (h2 : s2 ≠ []) :
    (strstr_loop s2 s1).isSome = true ↔ s2 <:+: s1 := by
  induction s1 with
  | nil => simp [strstr_loop, h2]
  | cons c cs ih =>
    rw [List.infix_cons_iff, ← ih, strstr_loop]
    by_cases hlen : (c :: cs).length ≥ s2.length
    · have hm := memcmp_eq_zero_iff (c :: cs) s2 s2.length hlen (le_refl _)
      rw [List.take_length] at hm
      have hp : s2 <+: c :: cs ↔ memcmp (c :: cs) s2 s2.length = 0 := by
        rw [hm, List.prefix_iff_eq_take]
        exact eq_comm
      rw [if_pos hlen, hp]
      by_cases hz : memcmp (c :: cs) s2 s2.length = 0
      · simp [hz]
      · simp [hz]
    · have hnp : ¬ s2 <+: c :: cs := fun hp => hlen hp.length_le
      have hni : ¬ s2 <:+: cs := fun hi => hlen (by
        have := hi.length_le
        simp only [List.length_cons]
        omega)
      rw [if_neg hlen]
      simp only [Option.isSome_none, Bool.false_eq_true, false_iff, not_or]
      exact ⟨hnp, fun h => hni (ih.mp h)⟩

theorem strstr_isSome (s1 s2 : List Char) :
    (strstr s1 s2).isSome = true ↔ s2 <:+: s1 := by
  unfold strstr
  by_cases h : s2.length = 0
  · have h0 : s2 = [] := List.length_eq_zero.mp h
    simp [h0]
  · have hne : s2 ≠ [] := fun h0 => h (by simp [h0])
    rw [if_neg h]
    exact strstr_loop_isSome s2 s1 hne

theorem match_loop_iff (subject : List Char) (table : List (Option (List Char))) :
    match_loop subject table = true ↔ ∃ tok ∈ tokens table, tok <:+: subject := by
  induction table with
  | nil => simp [match_loop, tokens]
  | cons e rest ih =>
    cases e with
    | none => simp [match_loop, tokens]
    | some tok =>
      simp only [match_loop, tokens, List.mem_cons, exists_eq_or_imp]
      by_cases hs : (strstr subject tok).isSome = true
      · simp [hs, (strstr_isSome subject tok).mp hs]
      · have hn : ¬ tok <:+: subject := fun h => hs ((strstr_isSome subject tok).mpr h)
        simp [hs, hn, ih]

/-- C1: for every non-null subject `s`, `is_dangerous_partition` returns true
exactly when `s` contains one of the tokens of `dangerous_partitions` as a
contiguous substring; the table holds 23 tokens; the subject
"/dev/block/by-name/xbl_a" is flagged, "/data/local/tmp" is not, and neither
is "/dev/block/by-name/XBL_A" (the match is case-sensitive). -/
theorem is_dangerous_partition_iff_contains_token :
    (∀ s : List Char, is_dangerous_partition (some s) = true ↔
        ∃ tok ∈ tokens dangerous_partitions, tok <:+: s) ∧
    (tokens dangerous_partitions).length = 23 ∧
    is_dangerous_partition (some "/dev/block/by-name/xbl_a".toList) = true ∧
    is_dangerous_partition (some "/data/local/tmp".toList) = false ∧
    is_dangerous_partition (some "/dev/block/by-name/XBL_A".toList) = false := by
  refine ⟨fun s => match_loop_iff s dangerous_partitions, by decide, by decide, by decide,
    by decide⟩

/-! ### The notifier and the poll loop -/

theorem notifier_not_waiting (e : input_event) (s : State)
    (h : s.waiting_for_input = false) : (volume_key_notifier e s).2 = s := by
  simp [volume_key_notifier, h]

theorem notifier_ignored (e : input_event) (s : State)
    (h : is_volume_key_down e = false) : (volume_key_notifier e s).2 = s := by
  simp only [is_volume_key_down, decide_eq_false_iff_not, not_and, not_or] at h
  unfold volume_key_notifier
  by_cases hw : s.waiting_for_input = true
  · by_cases ht : e.type = EV_KEY
    · by_cases hv : e.value = 1
      · have := h ht hv
        simp [hw, ht, hv, this.1, this.2]
      · simp [hw, ht, hv]
    · simp [hw, ht]
  · simp [hw]

theorem notifier_key_down (e : input_event) (s : State)
    (hw : s.waiting_for_input = true) (h : is_volume_key_down e = true) :
    (volume_key_notifier e s).2.waiting_for_input = false ∧
    (volume_key_notifier e s).2.user_confirmed = decide (e.code = KEY_VOLUMEUP) ∧
    (volume_key_notifier e s).2.confirm_mutex = s.confirm_mutex := by
  simp only [is_volume_key_down, decide_eq_true_eq] at h
  obtain ⟨ht, hv, hc⟩ := h
  unfold volume_key_notifier
  rcases hc with hc | hc
  · simp [hw, ht, hv, hc, printk]
  · have hne : ¬ KEY_VOLUMEDOWN = KEY_VOLUMEUP := by decide
    simp [hw, ht, hv, hc, hne, printk]

theorem deliver_not_waiting (l : List input_event) (s : State)
    (h : s.waiting_for_input = false) : deliver l s = s := by
  induction l with
  | nil => rfl
  | cons e l ih =>
    simp only [deliver, List.foldl_cons] at ih ⊢
    rw [notifier_not_waiting e s h]
    exact ih

theorem deliver_cons (e : input_event) (l : List input_event) (s : State) :
    deliver (e :: l) s = deliver l (volume_key_notifier e s).2 := rfl

theorem deliver_no_response (l : List input_event) (s : State)
    (h : l.find? is_volume_key_down = none) : deliver l s = s := by
  induction l with
  | nil => rfl
  | cons e l ih =>
    rw [List.find?_cons] at h
    cases he : is_volume_key_down e with
    | true => simp [he] at h
    | false =>
      rw [he] at h
      rw [deliver_cons, notifier_ignored e s he]
      exact ih h

theorem deliver_response (l : List input_event) (s : State) (e : input_event)
    (hw : s.waiting_for_input = true) (h : l.find? is_volume_key_down = some e) :
    (deliver l s).waiting_for_input = false ∧
    (deliver l s).user_confirmed = decide (e.code = KEY_VOLUMEUP) ∧
    (deliver l s).confirm_mutex = s.confirm_mutex := by
  induction l with
  | nil => simp at h
  | cons a l ih =>
    rw [List.find?_cons] at h
    cases ha : is_volume_key_down a with
    | true =>
      rw [ha] at h
      have hae : a = e := Option.some.inj h
      subst hae
      have hk := notifier_key_down a s hw ha
      rw [deliver_cons, deliver_not_waiting l _ hk.1]
      exact hk
    | false =>
      rw [ha] at h
      rw [deliver_cons, notifier_ignored a s ha]
      exact ih h

theorem wait_loop_not_waiting (sched : Nat → List input_event) (t k : Nat) (s : State)
    (h : s.waiting_for_input = false) : wait_loop sched t k s = (k, s) := by
  cases t with
  | zero => rfl
  | succ t => simp [wait_loop, h]

theorem wait_loop_no_response (sched : Nat → List input_event) (t k : Nat) (s : State)
    (hw : s.waiting_for_input = true)
    (h : (polled_events sched k t).find? is_volume_key_down = none) :
    wait_loop sched t k s = (k + t, s) := by
  induction t generalizing k with
  | zero => rfl
  | succ t ih =>
    simp only [polled_events, List.find?_append, Option.or_eq_none] at h
    simp only [wait_loop, hw, if_true]
    rw [deliver_no_response _ s h.1, ih (k + 1) h.2]
    congr 1
    omega

theorem wait_loop_response (sched : Nat → List input_event) (t k : Nat) (s : State)
    (e : input_event) (hw : s.waiting_for_input = true)
    (h : (polled_events sched k t).find? is_volume_key_down = some e) :
    (wait_loop sched t k s).2.waiting_for_input = false ∧
    (wait_loop sched t k s).2.user_confirmed = decide (e.code = KEY_VOLUMEUP) ∧
    (wait_loop sched t k s).2.confirm_mutex = s.confirm_mutex := by
  induction t generalizing k with
  | zero => simp [polled_events] at h
  | succ t ih =>
    simp only [polled_events, List.find?_append, Option.or_eq_some] at h
    simp only [wait_loop, hw, if_true]
    rcases h with h | ⟨hn, h⟩
    · have hd := deliver_response _ s e hw h
      rw [wait_loop_not_waiting sched t (k + 1) _ hd.1]
      exact hd
    · rw [deliver_no_response _ s hn]
      exact ih (k + 1) h

/-! ### The hook handlers -/

theorem nat_ne_zero_iff_testBit (x : Nat) : x ≠ 0 ↔ ∃ i, x.testBit i = true := by
  constructor
  · exact Nat.ne_zero_implies_bit_true
  · rintro ⟨i, hi⟩ h0
    simp [h0] at hi

theorem land_two_pow_ne_zero (f : Int) (j : Nat) :
    Int.land f ((2 ^ j : Nat) : Int) ≠ 0 ↔ f.testBit j = true := by
  cases f with
  | ofNat m =>
    show ((m &&& 2 ^ j : Nat) : Int) ≠ 0 ↔ Nat.testBit m j = true
    rw [Ne, Int.natCast_eq_zero, ← Ne, nat_ne_zero_iff_testBit]
    constructor
    · rintro ⟨i, hi⟩
      rw [Nat.testBit_and, Nat.testBit_two_pow] at hi
      simp only [Bool.and_eq_true, decide_eq_true_eq] at hi
      rw [hi.2]; exact hi.1
    · intro h
      exact ⟨j, by rw [Nat.testBit_and, Nat.testBit_two_pow, h]; simp⟩
  | negSucc m =>
    show ((Nat.ldiff (2 ^ j) m : Nat) : Int) ≠ 0 ↔ (!Nat.testBit m j) = true
    rw [Ne, Int.natCast_eq_zero, ← Ne, nat_ne_zero_iff_testBit]
    constructor
    · rintro ⟨i, hi⟩
      rw [Nat.testBit_ldiff, Nat.testBit_two_pow] at hi
      simp only [Bool.and_eq_true, decide_eq_true_eq] at hi
      rw [hi.1]; exact hi.2
    · intro h
      exact ⟨j, by rw [Nat.testBit_ldiff, Nat.testBit_two_pow, h]; simp⟩

theorem land_O_WRONLY_ne_zero (f : Int) : Int.land f O_WRONLY ≠ 0 ↔ f.testBit 0 = true :=
  land_two_pow_ne_zero f 0

theorem land_O_RDWR_ne_zero (f : Int) : Int.land f O_RDWR ≠ 0 ↔ f.testBit 1 = true :=
  land_two_pow_ne_zero f 1

theorem strncpy_from_user_whole (str adj : List Char) (count : Nat)
    (h : str.length < count) :
    strncpy_from_user (some str) count adj = ((str.length : Int), str) := by
  simp [strncpy_from_user, h]

theorem hook_sys_open_copied (K : Kernel) (regs : pt_regs) (s : State)
    (adj path : List Char) (hk : K.kmalloc = some adj)
    (hu : K.user (regs.regs 0) = some path)
    (hpos : 0 < path.length) (hlt : path.length < PATH_MAX) :
    (hook_sys_open K regs s).1 =
      if ((to_int (regs.regs 1)).testBit 0 = true ∨ (to_int (regs.regs 1)).testBit 1 = true) ∧
          is_dangerous_partition (some path) = true
      then -EACCES else 0 := by
  have hn : ((path.length : Int) > 0) := by exact_mod_cast hpos
  simp only [hook_sys_open, hk, hu, strncpy_from_user_whole path adj PATH_MAX hlt, hn, if_true,
    land_O_WRONLY_ne_zero, land_O_RDWR_ne_zero]
  by_cases hb : (to_int (regs.regs 1)).testBit 0 = true ∨ (to_int (regs.regs 1)).testBit 1 = true
  · by_cases hd : is_dangerous_partition (some path) = true
    · simp [hb, hd]
    · simp [hb, hd]
  · simp [hb]

theorem hook_sys_open_read_only (K : Kernel) (regs : pt_regs) (s : State)
    (h0 : (to_int (regs.regs 1)).testBit 0 = false)
    (h1 : (to_int (regs.regs 1)).testBit 1 = false) :
    (hook_sys_open K regs s).1 = 0 := by
  have hb : ¬ (Int.land (to_int (regs.regs 1)) O_WRONLY ≠ 0 ∨
      Int.land (to_int (regs.regs 1)) O_RDWR ≠ 0) := by
    rw [land_O_WRONLY_ne_zero, land_O_RDWR_ne_zero, h0, h1]
    simp
  unfold hook_sys_open
  cases K.kmalloc with
  | none => rfl
  | some adj =>
    simp only [if_neg hb]
    split <;> rfl

/-- C2: for every non-null subject `s`, `is_dangerous_command` returns true
exactly when `s` contains "dd", "mkfs", "format" or "wipe" as a contiguous
substring; a token inside a longer word is matched all the same (whatever
text surrounds it; "/system/bin/add" is flagged); "ls" and "cat" are not
flagged. -/
theorem is_dangerous_command_iff_contains_token :
    (∀ s : List Char, is_dangerous_command (some s) = true ↔
        ("dd".toList <:+: s ∨ "mkfs".toList <:+: s ∨ "format".toList <:+: s ∨
          "wipe".toList <:+: s)) ∧
    (∀ tok ∈ ["dd".toList, "mkfs".toList, "format".toList, "wipe".toList],
        ∀ before after : List Char,
          is_dangerous_command (some (before ++ tok ++ after)) = true) ∧
    is_dangerous_command (some "/system/bin/add".toList) = true ∧
    is_dangerous_command (some "ls".toList) = false ∧
    is_dangerous_command (some "cat".toList) = false := by
  have key : ∀ s : List Char, is_dangerous_command (some s) = true ↔
      ("dd".toList <:+: s ∨ "mkfs".toList <:+: s ∨ "format".toList <:+: s ∨
        "wipe".toList <:+: s) := by
    intro s
    show match_loop s dangerous_commands = true ↔ _
    rw [match_loop_iff]
    simp [tokens, dangerous_commands]
  refine ⟨key, ?_, by decide, by decide, by decide⟩
  intro tok htok before after
  rw [key]
  have hin : tok <:+: before ++ tok ++ after := ⟨before, after, rfl⟩
  simp only [List.mem_cons, List.mem_singleton, List.not_mem_nil, or_false] at htok
  rcases htok with h | h | h | h <;> subst h
  · exact Or.inl hin
  · exact Or.inr (Or.inl hin)
  · exact Or.inr (Or.inr (Or.inl hin))
  · exact Or.inr (Or.inr (Or.inr hin))

/-- C3: when the path was copied in whole from the caller (allocation
succeeded, the string at the user address is non-empty and shorter than
`PATH_MAX`), `hook_sys_open` returns `-EACCES` exactly when the flags have the
`O_WRONLY` bit (bit 0) or the `O_RDWR` bit (bit 1) set and
`is_dangerous_partition(path)` holds, and returns `0` otherwise; and for every
call whatsoever, flags with neither bit set give `0`. -/
theorem hook_sys_open_deny_iff_write_to_protected (K : Kernel) (regs : pt_regs) (s : State)
    (adj path : List Char) (hk : K.kmalloc = some adj)
    (hu : K.user (regs.regs 0) = some path)
    (hpos : 0 < path.length) (hlt : path.length < PATH_MAX) :
    ((hook_sys_open K regs s).1 = -EACCES ↔
      (((to_int (regs.regs 1)).testBit 0 = true ∨ (to_int (regs.regs 1)).testBit 1 = true) ∧
        is_dangerous_partition (some path) = true)) ∧
    ((hook_sys_open K regs s).1 ≠ -EACCES → (hook_sys_open K regs s).1 = 0) ∧
    (∀ (K1 : Kernel) (regs1 : pt_regs) (s1 : State),
      (to_int (regs1.regs 1)).testBit 0 = false → (to_int (regs1.regs 1)).testBit 1 = false →
      (hook_sys_open K1 regs1 s1).1 = 0) := by
  have h := hook_sys_open_copied K regs s adj path hk hu hpos hlt
  refine ⟨?_, ?_, fun K1 regs1 s1 => hook_sys_open_read_only K1 regs1 s1⟩
  · rw [h]
    split
    · simpa using ‹_›
    · rename_i hc
      simp only [hc, iff_false]
      decide
  · rw [h]
    split
    · intro hne; exact absurd rfl hne
    · intro _; rfl

/-- Witness of C3: a write-only open (flags `1`) of "/dev/block/by-name/xbl_a"
is denied. -/
theorem hook_sys_open_deny_iff_write_to_protected_witness :
    (hook_sys_open ⟨some [], fun _ => some "/dev/block/by-name/xbl_a".toList⟩
      ⟨fun i => if i = 1 then 1 else 4096⟩ State.init).1 = -EACCES :=
  ((hook_sys_open_deny_iff_write_to_protected
      ⟨some [], fun _ => some "/dev/block/by-name/xbl_a".toList⟩
      ⟨fun i => if i = 1 then 1 else 4096⟩ State.init [] "/dev/block/by-name/xbl_a".toList
      rfl rfl (by decide) (by decide)).1).mpr ⟨by decide, by decide⟩

theorem hook_sys_unlink_copied (K : Kernel) (regs : pt_regs) (s : State)
    (adj path : List Char) (hk : K.kmalloc = some adj)
    (hu : K.user (regs.regs 0) = some path)
    (hpos : 0 < path.length) (hlt : path.length < PATH_MAX) :
    (hook_sys_unlink K regs s).1 =
      if (strstr path "/dev/input/".toList).isSome = true then -EACCES else 0 := by
  have hn : ((path.length : Int) > 0) := by exact_mod_cast hpos
  simp only [hook_sys_unlink, hk, hu, strncpy_from_user_whole path adj PATH_MAX hlt, hn, if_true]
  split <;> rfl

theorem wait_for_user_confirmation_eq (operation : List Char)
    (sched : Nat → List input_event) (s : State) (hm : s.confirm_mutex = false) :
    wait_for_user_confirmation operation sched s =
      some { result := (wait_loop sched 50 0 (prompted operation s)).2.user_confirmed,
             polls := (wait_loop sched 50 0 (prompted operation s)).1,
             state := mutex_unlock
               { (wait_loop sched 50 0 (prompted operation s)).2 with
                 waiting_for_input := false } } := by
  simp [wait_for_user_confirmation, mutex_lock, hm, prompted, printk]

theorem prompted_waiting (operation : List Char) (s : State) :
    (prompted operation s).waiting_for_input = true ∧
    (prompted operation s).user_confirmed = false := by
  simp [prompted, printk]

theorem hook_sys_execve_copied (K : Kernel) (sched : Nat → List input_event)
    (regs : pt_regs) (s : State)
    (adj subject : List Char) (hk : K.kmalloc = some adj)
    (hu : K.user (regs.regs 0) = some subject)
    (hpos : 0 < subject.length) (hlt : subject.length < PATH_MAX) :
    hook_sys_execve K sched regs s =
      if is_dangerous_command (some subject) = true then
        match wait_for_user_confirmation (execve_msg subject) sched s with
        | none => none
        | some w =>
          if (!w.result) = true then
            some (-EACCES, printk .err ("[".toList ++ MODULE_NAME ++
              "] User denied execution of: ".toList ++ subject ++ "\n".toList) w.state)
          else some (0, w.state)
      else some (0, s) := by
  have hn : ((subject.length : Int) > 0) := by exact_mod_cast hpos
  simp only [hook_sys_execve, hk, hu, strncpy_from_user_whole subject adj PATH_MAX hlt, hn,
    if_true]

/-- C4: when the subject was copied in whole from the caller (allocation
succeeded, the string at the user address is non-empty and shorter than
`PATH_MAX`): a subject that `is_dangerous_command` does not flag is allowed
with the module state untouched (no lock taken, no flag written, no prompt
logged: the wait is not started), whatever the state of the mutex; and when
the mutex is free the hook returns `0` or `-EACCES`, and it returns `0`
exactly when the subject is not flagged or the confirmation wait on the
formatted description returns true; a flagged subject whose wait returns
false (denied or timed out) gets `-EACCES`. -/
theorem hook_sys_execve_allow_iff_safe_or_confirmed (K : Kernel)
    (sched : Nat → List input_event) (regs : pt_regs) (s : State)
    (adj subject : List Char) (hk : K.kmalloc = some adj)
    (hu : K.user (regs.regs 0) = some subject)
    (hpos : 0 < subject.length) (hlt : subject.length < PATH_MAX) :
    (is_dangerous_command (some subject) = false →
      hook_sys_execve K sched regs s = some (0, s)) ∧
    (s.confirm_mutex = false →
      ∃ ret s1, hook_sys_execve K sched regs s = some (ret, s1) ∧
        (ret = 0 ∨ ret = -EACCES) ∧
        (ret = 0 ↔
          (is_dangerous_command (some subject) = false ∨
            (wait_for_user_confirmation (execve_msg subject) sched s).map WaitOutcome.result
              = some true)) ∧
        (is_dangerous_command (some subject) = true →
          (wait_for_user_confirmation (execve_msg subject) sched s).map WaitOutcome.result
              = some false →
          ret = -EACCES)) := by
  have h := hook_sys_execve_copied K sched regs s adj subject hk hu hpos hlt
  have hneg : (-EACCES : Int) ≠ 0 := by decide
  refine ⟨fun hd => by rw [h]; simp [hd], fun hm => ?_⟩
  rw [h, wait_for_user_confirmation_eq _ sched s hm]
  cases hd : is_dangerous_command (some subject) with
  | false => exact ⟨0, s, by simp, Or.inl rfl, by simp, by simp⟩
  | true =>
    cases hr : (wait_loop sched 50 0 (prompted (execve_msg subject) s)).2.user_confirmed with
    | false =>
      simp only [if_true, Bool.not_false, Option.map_some']
      exact ⟨_, _, rfl, Or.inr rfl, by simp [hneg], fun _ _ => rfl⟩
    | true =>
      simp only [if_true, Bool.not_true, Bool.false_eq_true, if_false, Option.map_some']
      exact ⟨_, _, rfl, Or.inl rfl, by simp, by simp⟩

/-- Witness of C4: executing "dd if=/dev/zero of=/dev/block/xbl_a" is allowed
when Volume+ is pressed during the wait, and denied when no key arrives
before the timeout. -/
theorem hook_sys_execve_allow_iff_safe_or_confirmed_witness :
    (hook_sys_execve (kernel_with "dd if=/dev/zero of=/dev/block/xbl_a".toList)
        (schedule_at 7 [volume_up_press]) (regs_with 0) State.init).map Prod.fst = some 0 ∧
    (hook_sys_execve (kernel_with "dd if=/dev/zero of=/dev/block/xbl_a".toList)
        (fun _ => []) (regs_with 0) State.init).map Prod.fst = some (-EACCES) := by
  constructor
  · obtain ⟨ret, s1, he, _, hiff, _⟩ :=
      (hook_sys_execve_allow_iff_safe_or_confirmed
        (kernel_with "dd if=/dev/zero of=/dev/block/xbl_a".toList)
        (schedule_at 7 [volume_up_press]) (regs_with 0) State.init []
        "dd if=/dev/zero of=/dev/block/xbl_a".toList rfl rfl (by decide) (by decide)).2 rfl
    rw [he, Option.map_some', hiff.mpr (Or.inr (by decide))]
  · obtain ⟨ret, s1, he, _, _, hden⟩ :=
      (hook_sys_execve_allow_iff_safe_or_confirmed
        (kernel_with "dd if=/dev/zero of=/dev/block/xbl_a".toList)
        (fun _ => []) (regs_with 0) State.init []
        "dd if=/dev/zero of=/dev/block/xbl_a".toList rfl rfl (by decide) (by decide)).2 rfl
    rw [he, Option.map_some', hden (by decide) (by decide)]

/-- C5 (failing input): "/data/dev/input/x" is not located under
"/dev/input/" (it does not start with it), yet `hook_sys_unlink` returns
`-EACCES` for it and logs it as a blocked input device; "/dev/input/event3"
is denied and "/data/tmp/file" is allowed, as the claim says. -/
theorem hook_sys_unlink_denies_path_outside_dev_input :
    ¬ ("/dev/input/".toList <+: "/data/dev/input/x".toList) ∧
    (hook_sys_unlink (kernel_with "/data/dev/input/x".toList) (regs_with 0) State.init).1
      = -EACCES ∧
    (hook_sys_unlink (kernel_with "/data/dev/input/x".toList) (regs_with 0) State.init).2.klog
      = [(LogLevel.err,
          "[AntiWipe] Blocked deletion of input device: /data/dev/input/x\n".toList)] ∧
    (hook_sys_unlink (kernel_with "/dev/input/event3".toList) (regs_with 0) State.init).1
      = -EACCES ∧
    (hook_sys_unlink (kernel_with "/data/tmp/file".toList) (regs_with 0) State.init).1 = 0 := by
  decide

/-- What `hook_sys_unlink` computes for a path copied in whole from the
caller (allocation succeeded, the string at the user address is non-empty and
shorter than `PATH_MAX`): `-EACCES` exactly when the path contains the text
"/dev/input/" as a contiguous substring, anywhere in it, and `0` otherwise; so
a path that starts with that text is denied. -/
theorem hook_sys_unlink_deny_iff_contains_dev_input (K : Kernel) (regs : pt_regs) (s : State)
    (adj path : List Char) (hk : K.kmalloc = some adj)
    (hu : K.user (regs.regs 0) = some path)
    (hpos : 0 < path.length) (hlt : path.length < PATH_MAX) :
    ((hook_sys_unlink K regs s).1 = -EACCES ↔ "/dev/input/".toList <:+: path) ∧
    ((hook_sys_unlink K regs s).1 ≠ -EACCES → (hook_sys_unlink K regs s).1 = 0) ∧
    ("/dev/input/".toList <+: path → (hook_sys_unlink K regs s).1 = -EACCES) := by
  have h := hook_sys_unlink_copied K regs s adj path hk hu hpos hlt
  have hneg : (0 : Int) ≠ -EACCES := by decide
  have hiff : (hook_sys_unlink K regs s).1 = -EACCES ↔ "/dev/input/".toList <:+: path := by
    rw [h, ← strstr_isSome]
    by_cases hs : (strstr path "/dev/input/".toList).isSome = true
    · rw [if_pos hs]
      exact ⟨fun _ => hs, fun _ => rfl⟩
    · rw [if_neg hs]
      exact ⟨fun h0 => absurd h0 hneg, fun h1 => absurd h1 hs⟩
  refine ⟨hiff, ?_, fun hp => hiff.mpr hp.isInfix⟩
  rw [h]
  split
  · intro hne; exact absurd rfl hne
  · intro _; rfl

/-! ### The confirmation protocol -/

theorem mem_polled_events (sched : Nat → List input_event) (e : input_event) (k t : Nat) :
    e ∈ polled_events sched k t ↔ ∃ i, k ≤ i ∧ i < k + t ∧ e ∈ sched i := by
  induction t generalizing k with
  | zero =>
    simp only [polled_events, List.not_mem_nil, false_iff]
    rintro ⟨i, h1, h2, _⟩
    omega
  | succ t ih =>
    simp only [polled_events, List.mem_append, ih]
    constructor
    · rintro (h | ⟨i, h1, h2, h3⟩)
      · exact ⟨k, le_refl _, by omega, h⟩
      · exact ⟨i, by omega, by omega, h3⟩
    · rintro ⟨i, h1, h2, h3⟩
      by_cases hik : i = k
      · subst hik; exact Or.inl h3
      · exact Or.inr ⟨i, by omega, by omega, h3⟩

/-- Responses that arrive while the call sleeps: when all key events are
delivered during the `msleep(100)` calls of the poll loop, then for every
description, every schedule of events and every initial value of the two
flags, a first volume key-down event that is a Volume+ press makes the wait
return true, and one that is a Volume- press makes it return false. -/
theorem wait_returns_first_response (operation : List Char)
    (sched : Nat → List input_event) (w c : Bool) (log : List (LogLevel × List Char))
    (e : input_event) (h : first_response sched = some e) :
    ∃ r, wait_for_user_confirmation operation sched
          { waiting_for_input := w, user_confirmed := c, confirm_mutex := false, klog := log }
        = some r ∧
      (e.code = KEY_VOLUMEUP → r.result = true) ∧
      (e.code = KEY_VOLUMEDOWN → r.result = false) := by
  rw [wait_for_user_confirmation_eq operation sched _ rfl]
  refine ⟨_, rfl, ?_, ?_⟩
  · intro hc
    show (wait_loop sched 50 0 _).2.user_confirmed = true
    rw [(wait_loop_response sched 50 0 _ e (prompted_waiting operation _).1 h).2.1]
    simp [hc]
  · intro hc
    show (wait_loop sched 50 0 _).2.user_confirmed = false
    rw [(wait_loop_response sched 50 0 _ e (prompted_waiting operation _).1 h).2.1]
    have hne : ¬ KEY_VOLUMEDOWN = KEY_VOLUMEUP := by decide
    simp [hc, hne]

/-- C7: if no volume key-down event is delivered during any of the 50
sleeps, then for every description and every initial value of
`waiting_for_input` and `user_confirmed` the wait returns false, after
exactly 50 `msleep(100)` calls. -/
theorem wait_times_out_after_50_polls (operation : List Char)
    (sched : Nat → List input_event) (w c : Bool) (log : List (LogLevel × List Char))
    (h : ∀ k, k < 50 → ∀ e ∈ sched k, is_volume_key_down e = false) :
    ∃ r, wait_for_user_confirmation operation sched
          { waiting_for_input := w, user_confirmed := c, confirm_mutex := false, klog := log }
        = some r ∧
      r.result = false ∧ r.polls = 50 := by
  have hnone : (polled_events sched 0 50).find? is_volume_key_down = none := by
    rw [List.find?_eq_none]
    intro e he
    obtain ⟨i, _, hi, hmem⟩ := (mem_polled_events sched e 0 50).mp he
    simp [h i (by omega) e hmem]
  rw [wait_for_user_confirmation_eq operation sched _ rfl,
    wait_loop_no_response sched 50 0 _ (prompted_waiting operation _).1 hnone]
  exact ⟨_, rfl, (prompted_waiting operation
    { waiting_for_input := w, user_confirmed := c, confirm_mutex := false, klog := log }).2,
    by simp⟩

/-- Witness of C7: a wait during which only a key-up event and a press of
another key arrive times out, even when `user_confirmed` was left `true`. -/
theorem wait_times_out_after_50_polls_witness :
    ∃ r, wait_for_user_confirmation "rm".toList
          (schedule_at 3 [{ type := EV_KEY, code := KEY_VOLUMEUP, value := 0 },
            { type := EV_KEY, code := 116, value := 1 }])
          { waiting_for_input := true, user_confirmed := true, confirm_mutex := false,
            klog := [] }
        = some r ∧
      r.result = false ∧ r.polls = 50 :=
  wait_times_out_after_50_polls "rm".toList
    (schedule_at 3 [{ type := EV_KEY, code := KEY_VOLUMEUP, value := 0 },
      { type := EV_KEY, code := 116, value := 1 }])
    true true [] (by
      intro k _ e he
      unfold schedule_at at he
      split at he
      · simp only [List.mem_cons, List.mem_singleton, List.not_mem_nil, or_false] at he
        rcases he with he | he <;> subst he <;> decide
      · simp at he)

/-- C8: the notifier does nothing unless a confirmation is pending, and the
first response wins: with `waiting_for_input = false` every event leaves the
state as it is; and from a pending state, after a volume key-down event `e1`
any further event `e2` changes nothing. -/
theorem notifier_noop_unless_pending_first_wins (s : State) (e1 e2 : input_event) :
    (s.waiting_for_input = false → (volume_key_notifier e1 s).2 = s) ∧
    (s.waiting_for_input = true → is_volume_key_down e1 = true →
      (volume_key_notifier e2 (volume_key_notifier e1 s).2).2 = (volume_key_notifier e1 s).2) :=
  ⟨fun h => notifier_not_waiting e1 s h,
   fun hw h1 => notifier_not_waiting e2 _ (notifier_key_down e1 s hw h1).1⟩

/-- Witness of C8: a Volume- press after a Volume+ press on a pending
confirmation leaves the confirmed outcome in place. -/
theorem notifier_noop_unless_pending_first_wins_witness :
    (volume_key_notifier volume_down_press
        (volume_key_notifier volume_up_press
          { waiting_for_input := true, user_confirmed := false, confirm_mutex := true,
            klog := [] }).2).2
      = (volume_key_notifier volume_up_press
          { waiting_for_input := true, user_confirmed := false, confirm_mutex := true,
            klog := [] }).2 :=
  (notifier_noop_unless_pending_first_wins
    { waiting_for_input := true, user_confirmed := false, confirm_mutex := true, klog := [] }
    volume_up_press volume_down_press).2 rfl (by decide)

/-- C9: while a confirmation is pending, a key-down event (type `EV_KEY`,
value `1`) with code `KEY_VOLUMEUP` sets `user_confirmed` and clears
`waiting_for_input`; one with code `KEY_VOLUMEDOWN` clears both; every other
event (another type, another code, or a value other than `1`) leaves the
state, and so both flags, unchanged. -/
theorem notifier_effect_while_pending (s : State) (e : input_event)
    (hw : s.waiting_for_input = true) :
    (e.type = EV_KEY → e.value = 1 → e.code = KEY_VOLUMEUP →
      (volume_key_notifier e s).2.user_confirmed = true ∧
      (volume_key_notifier e s).2.waiting_for_input = false) ∧
    (e.type = EV_KEY → e.value = 1 → e.code = KEY_VOLUMEDOWN →
      (volume_key_notifier e s).2.user_confirmed = false ∧
      (volume_key_notifier e s).2.waiting_for_input = false) ∧
    (¬ (e.type = EV_KEY ∧ e.value = 1 ∧ (e.code = KEY_VOLUMEUP ∨ e.code = KEY_VOLUMEDOWN)) →
      (volume_key_notifier e s).2 = s) := by
  refine ⟨fun ht hv hc => ?_, fun ht hv hc => ?_, fun hn => ?_⟩
  · have hk := notifier_key_down e s hw (by simp [is_volume_key_down, ht, hv, hc])
    exact ⟨by rw [hk.2.1]; simp [hc], hk.1⟩
  · have hk := notifier_key_down e s hw (by simp [is_volume_key_down, ht, hv, hc])
    have hne : ¬ KEY_VOLUMEDOWN = KEY_VOLUMEUP := by decide
    exact ⟨by rw [hk.2.1]; simp [hc, hne], hk.1⟩
  · exact notifier_ignored e s (by simp only [is_volume_key_down, decide_eq_false_iff_not]; exact hn)

/-- Witness of C9: on a pending confirmation a Volume+ press confirms. -/
theorem notifier_effect_while_pending_witness :
    (volume_key_notifier volume_up_press
        { waiting_for_input := true, user_confirmed := false, confirm_mutex := true,
          klog := [] }).2.user_confirmed = true ∧
    (volume_key_notifier volume_up_press
        { waiting_for_input := true, user_confirmed := false, confirm_mutex := true,
          klog := [] }).2.waiting_for_input = false :=
  (notifier_effect_while_pending
    { waiting_for_input := true, user_confirmed := false, confirm_mutex := true, klog := [] }
    volume_up_press rfl).1 rfl rfl rfl

/-- C10: for every initial state and every schedule of events, a call of
`wait_for_user_confirmation` that finds the mutex free returns, and whenever
the call returns, `waiting_for_input` is false and `confirm_mutex` is
released in the state it leaves. -/
theorem wait_leaves_no_pending_confirmation (operation : List Char)
    (sched : Nat → List input_event) (s : State) :
    (s.confirm_mutex = false →
      (wait_for_user_confirmation operation sched s).isSome = true) ∧
    (∀ r, wait_for_user_confirmation operation sched s = some r →
      r.state.waiting_for_input = false ∧ r.state.confirm_mutex = false) := by
  constructor
  · intro hm
    rw [wait_for_user_confirmation_eq operation sched s hm]
    rfl
  · intro r hr
    cases hm : s.confirm_mutex with
    | true => simp [wait_for_user_confirmation, mutex_lock, hm] at hr
    | false =>
      rw [wait_for_user_confirmation_eq operation sched s hm] at hr
      have hr1 := Option.some.inj hr
      subst hr1
      exact ⟨rfl, rfl⟩

/-- Witness of C10: a wait answered by a Volume+ press returns and leaves
the slot idle. -/
theorem wait_leaves_no_pending_confirmation_witness :
    (wait_for_user_confirmation "rm".toList (schedule_at 2 [volume_up_press]) State.init).isSome
      = true ∧
    (∀ r, wait_for_user_confirmation "rm".toList (schedule_at 2 [volume_up_press]) State.init
        = some r →
      r.state.waiting_for_input = false ∧ r.state.confirm_mutex = false) :=
  ⟨(wait_leaves_no_pending_confirmation "rm".toList (schedule_at 2 [volume_up_press])
      State.init).1 rfl,
   (wait_leaves_no_pending_confirmation "rm".toList (schedule_at 2 [volume_up_press])
      State.init).2⟩

/-! ### Degraded paths of the hooks and the matchers -/

/-- C11: for each of the three hooks, every register contents, every user
memory, every event schedule and every module state: when `kmalloc` returns
NULL the hook returns `0` and leaves the module state as it was (nothing is
logged, no flag is written, the mutex is not touched: the subject is not
classified and no confirmation is started). -/
theorem hooks_allow_when_kmalloc_fails (K : Kernel) (sched : Nat → List input_event)
    (regs : pt_regs) (s : State) (hk : K.kmalloc = none) :
    hook_sys_open K regs s = (0, s) ∧
    hook_sys_execve K sched regs s = some (0, s) ∧
    hook_sys_unlink K regs s = (0, s) := by
  refine ⟨?_, ?_, ?_⟩
  · simp [hook_sys_open, hk]
  · simp [hook_sys_execve, hk]
  · simp [hook_sys_unlink, hk]

/-- Witness of C11: with no scratch buffer, a write open of a protected
partition, an execve of "dd" while the mutex is held, and an unlink under
"/dev/input/" are all allowed. -/
theorem hooks_allow_when_kmalloc_fails_witness :
    hook_sys_open { kmalloc := none, user := fun _ => some "/dev/input/xbl_a dd".toList }
        (regs_with 1) { State.init with confirm_mutex := true }
      = (0, { State.init with confirm_mutex := true }) ∧
    hook_sys_execve { kmalloc := none, user := fun _ => some "/dev/input/xbl_a dd".toList }
        (schedule_at 0 [volume_down_press]) (regs_with 1)
        { State.init with confirm_mutex := true }
      = some (0, { State.init with confirm_mutex := true }) ∧
    hook_sys_unlink { kmalloc := none, user := fun _ => some "/dev/input/xbl_a dd".toList }
        (regs_with 1) { State.init with confirm_mutex := true }
      = (0, { State.init with confirm_mutex := true }) :=
  hooks_allow_when_kmalloc_fails
    { kmalloc := none, user := fun _ => some "/dev/input/xbl_a dd".toList }
    (schedule_at 0 [volume_down_press]) (regs_with 1)
    { State.init with confirm_mutex := true } rfl

/-- C12: `is_dangerous_partition` and `is_dangerous_command` return false for
the NULL subject and for the empty string; every token of both tables is
non-empty. -/
theorem matchers_false_on_null_and_empty :
    is_dangerous_partition none = false ∧
    is_dangerous_partition (some []) = false ∧
    is_dangerous_command none = false ∧
    is_dangerous_command (some []) = false ∧
    (∀ tok ∈ tokens dangerous_partitions, tok ≠ []) ∧
    (∀ tok ∈ tokens dangerous_commands, tok ≠ []) := by
  refine ⟨rfl, by decide, rfl, by decide, by decide, by decide⟩

/-! ### Termination of the poll loop -/

theorem wait_loop_polls_le (sched : Nat → List input_event) (t k : Nat) (s : State) :
    (wait_loop sched t k s).1 ≤ k + t := by
  induction t generalizing k s with
  | zero => simp [wait_loop]
  | succ t ih =>
    simp only [wait_loop]
    split
    · have := ih (k + 1) (deliver (sched k) s)
      omega
    · simp

theorem wait_loop_polls_first_response (sched : Nat → List input_event) (t k j : Nat)
    (s : State) (hw : s.waiting_for_input = true) (hj : j < t)
    (hbefore : (polled_events sched k j).find? is_volume_key_down = none)
    (hat : ∃ e ∈ sched (k + j), is_volume_key_down e = true) :
    (wait_loop sched t k s).1 = k + j + 1 := by
  induction j generalizing t k with
  | zero =>
    cases t with
    | zero => omega
    | succ t =>
      obtain ⟨e, he, hv⟩ := hat
      have hsome : ∃ e1, (sched k).find? is_volume_key_down = some e1 := by
        cases hf : (sched k).find? is_volume_key_down with
        | none =>
          rw [List.find?_eq_none] at hf
          exact absurd hv (hf e he)
        | some e1 => exact ⟨e1, rfl⟩
      obtain ⟨e1, he1⟩ := hsome
      have hd := deliver_response (sched k) s e1 hw he1
      simp only [wait_loop, hw, if_true]
      rw [wait_loop_not_waiting sched t (k + 1) _ hd.1]
  | succ j ih =>
    cases t with
    | zero => omega
    | succ t =>
      simp only [polled_events, List.find?_append, Option.or_eq_none] at hbefore
      simp only [wait_loop, hw, if_true]
      rw [deliver_no_response _ s hbefore.1]
      have hat1 : ∃ e ∈ sched (k + 1 + j), is_volume_key_down e = true := by
        have : k + 1 + j = k + (j + 1) := by omega
        rw [this]; exact hat
      rw [ih t (k + 1) (by omega) hbefore.2 hat1]
      omega

/-- C13: for every initial state with the mutex free and every stream of
event batches, the call returns after at most 50 `msleep(100)` calls; and when
the first volume key-down event arrives during sleep number `j` (counted from
`0`), the loop stops at the next test: `j + 1` sleeps are made. -/
theorem wait_stops_within_50_polls_at_first_response (operation : List Char)
    (sched : Nat → List input_event) (s : State) (hm : s.confirm_mutex = false) :
    ∃ r, wait_for_user_confirmation operation sched s = some r ∧
      r.polls ≤ 50 ∧
      (∀ j, j < 50 →
        (∀ i, i < j → ∀ e ∈ sched i, is_volume_key_down e = false) →
        (∃ e ∈ sched j, is_volume_key_down e = true) →
        r.polls = j + 1) := by
  rw [wait_for_user_confirmation_eq operation sched s hm]
  refine ⟨_, rfl, ?_, ?_⟩
  · have := wait_loop_polls_le sched 50 0 (prompted operation s)
    simpa using this
  · intro j hj hbefore hat
    have hnone : (polled_events sched 0 j).find? is_volume_key_down = none := by
      rw [List.find?_eq_none]
      intro e he
      obtain ⟨i, _, hi, hmem⟩ := (mem_polled_events sched e 0 j).mp he
      simp [hbefore i (by omega) e hmem]
    have hat0 : ∃ e ∈ sched (0 + j), is_volume_key_down e = true := by
      rw [Nat.zero_add]; exact hat
    have := wait_loop_polls_first_response sched 50 0 j (prompted operation s)
      (prompted_waiting operation s).1 hj hnone hat0
    simpa using this

/-- Witness of C13: a Volume- press during the fourth sleep ends the loop
after four sleeps. -/
theorem wait_stops_within_50_polls_at_first_response_witness :
    ∃ r, wait_for_user_confirmation "rm".toList (schedule_at 3 [volume_down_press]) State.init
        = some r ∧
      r.polls ≤ 50 ∧
      (∀ j, j < 50 →
        (∀ i, i < j → ∀ e ∈ schedule_at 3 [volume_down_press] i,
          is_volume_key_down e = false) →
        (∃ e ∈ schedule_at 3 [volume_down_press] j, is_volume_key_down e = true) →
        r.polls = j + 1) :=
  wait_stops_within_50_polls_at_first_response "rm".toList
    (schedule_at 3 [volume_down_press]) State.init rfl

/-! ### Module initialisation -/

/-- C14: whatever `register_kprobe` returns for each probe, `kpm_init` calls
it for all five probes, in the order sys_open, sys_openat, sys_execve,
sys_unlink, sys_unlinkat, each with its handler. -/
theorem kpm_init_attempts_all_five (register_kprobe : kprobe → Int) (s : State) :
    (kpm_init register_kprobe s).attempts =
      [ { symbol_name := "sys_open".toList, pre_handler := Handler.hook_sys_open },
        { symbol_name := "sys_openat".toList, pre_handler := Handler.hook_sys_open },
        { symbol_name := "sys_execve".toList, pre_handler := Handler.hook_sys_execve },
        { symbol_name := "sys_unlink".toList, pre_handler := Handler.hook_sys_unlink },
        { symbol_name := "sys_unlinkat".toList, pre_handler := Handler.hook_sys_unlink } ] := by
  rfl

/-- C15 (failing input): when only the registration of the probe on
sys_openat fails, `kpm_init` returns `0`, logs no error line, and its whole
outcome equals that of a run in which all five registrations succeed; a
failure of the probe on sys_open, by contrast, is logged as an error (and
still `0` is returned). -/
theorem kpm_init_silent_on_openat_failure :
    kpm_init (fail_only "sys_openat".toList) State.init = kpm_init (fun _ => 0) State.init ∧
    (kpm_init (fail_only "sys_openat".toList) State.init).ret = 0 ∧
    (∀ line ∈ (kpm_init (fail_only "sys_openat".toList) State.init).state.klog,
      line.1 ≠ LogLevel.err) ∧
    (∃ line ∈ (kpm_init (fail_only "sys_open".toList) State.init).state.klog,
      line.1 = LogLevel.err) ∧
    (kpm_init (fail_only "sys_open".toList) State.init).ret = 0 := by
  decide

/-! ### Two concurrent requests -/

theorem notifier_mutex (e : input_event) (s : State) :
    (volume_key_notifier e s).2.confirm_mutex = s.confirm_mutex := by
  unfold volume_key_notifier
  split
  · rfl
  · split
    · split
      · rfl
      · split <;> rfl
    · rfl

theorem undisturbed_step_first (σ τ : System) (h : undisturbed σ τ) :
    undisturbed (system_step Action.first σ) (system_step Action.first τ) := by
  obtain ⟨⟨op, pc, t, r⟩, b, g⟩ := σ
  obtain ⟨τa, τb, τg⟩ := τ
  obtain ⟨h1, h2, h3⟩ := h
  simp only at h1 h2 h3
  subst h1
  cases pc with
  | lock => exact absurd rfl h2
  | done => simp [undisturbed, system_step, call_step]
  | test =>
    obtain ⟨hg, hmx, hb⟩ := h3 (by decide)
    subst hg
    simp only [undisturbed, system_step, call_step]
    split
    · split <;> simp [hmx, hb]
    · simp [hmx, hb]
  | unlock =>
    obtain ⟨hg, hmx, hb⟩ := h3 (by decide)
    subst hg
    simp [undisturbed, system_step, call_step]
  | set_waiting =>
    obtain ⟨hg, hmx, hb⟩ := h3 (by decide)
    subst hg
    simp [undisturbed, system_step, call_step, hmx, hb]
  | clear_confirmed =>
    obtain ⟨hg, hmx, hb⟩ := h3 (by decide)
    subst hg
    simp [undisturbed, system_step, call_step, hmx, hb]
  | warn_operation =>
    obtain ⟨hg, hmx, hb⟩ := h3 (by decide)
    subst hg
    simp [undisturbed, system_step, call_step, printk, hmx, hb]
  | warn_keys =>
    obtain ⟨hg, hmx, hb⟩ := h3 (by decide)
    subst hg
    simp [undisturbed, system_step, call_step, printk, hmx, hb]
  | sleep =>
    obtain ⟨hg, hmx, hb⟩ := h3 (by decide)
    subst hg
    simp [undisturbed, system_step, call_step, hmx, hb]
  | clear_waiting =>
    obtain ⟨hg, hmx, hb⟩ := h3 (by decide)
    subst hg
    simp [undisturbed, system_step, call_step, hmx, hb]
  | read_result =>
    obtain ⟨hg, hmx, hb⟩ := h3 (by decide)
    subst hg
    simp [undisturbed, system_step, call_step, hmx, hb]

theorem undisturbed_step_key (σ τ : System) (e : input_event) (h : undisturbed σ τ) :
    undisturbed (system_step (Action.key e) σ) (system_step (Action.key e) τ) := by
  obtain ⟨h1, h2, h3⟩ := h
  refine ⟨h1, h2, fun hd => ?_⟩
  obtain ⟨hg, hmx, hb⟩ := h3 hd
  refine ⟨?_, ?_, hb⟩
  · show (volume_key_notifier e σ.shared).2 = (volume_key_notifier e τ.shared).2
    rw [hg]
  · show (volume_key_notifier e σ.shared).2.confirm_mutex = true
    rw [notifier_mutex, hmx]

theorem undisturbed_step_second (σ τ : System) (h : undisturbed σ τ) :
    undisturbed (system_step Action.second σ) τ := by
  obtain ⟨h1, h2, h3⟩ := h
  refine ⟨h1, h2, fun hd => ?_⟩
  obtain ⟨hg, hmx, hb⟩ := h3 hd
  have hstay : call_step σ.second σ.shared = (σ.second, σ.shared) := by
    simp [call_step, hb, mutex_lock, hmx]
  simp only [system_step, hstay]
  exact ⟨hg, hmx, hb⟩

theorem undisturbed_run (acts : List Action) (σ τ : System) (h : undisturbed σ τ) :
    undisturbed (run acts σ) (run (without_second acts) τ) := by
  induction acts generalizing σ τ with
  | nil => exact h
  | cons a acts ih =>
    cases a with
    | first => exact ih _ _ (undisturbed_step_first σ τ h)
    | second => exact ih _ _ (undisturbed_step_second σ τ h)
    | key e => exact ih _ _ (undisturbed_step_key σ τ e h)

theorem undisturbed_after_lock (op1 op2 : List Char) (g : State)
    (hm : g.confirm_mutex = false) :
    undisturbed (system_step Action.first (two_calls op1 op2 g))
      (system_step Action.first (two_calls op1 op2 g)) := by
  simp [undisturbed, system_step, two_calls, Call.start, call_step, mutex_lock, hm]

/-- C16: two requests are entered on a free mutex and the first one takes
the lock; then, for every interleaving of further steps of the two calls and
of key events, the first call's local state (program point, remaining
`timeout`, `result`) is what it is in the same interleaving with all steps of
the second call left out; and as long as the first call has not returned, the
shared flags, mutex and log are the same as well, and the second call still
stands at its `mutex_lock`. -/
theorem second_request_cannot_disturb_first (op1 op2 : List Char) (g : State)
    (acts : List Action) (hm : g.confirm_mutex = false) :
    (run (Action.first :: acts) (two_calls op1 op2 g)).first
      = (run (without_second (Action.first :: acts)) (two_calls op1 op2 g)).first ∧
    ((run (Action.first :: acts) (two_calls op1 op2 g)).first.pc ≠ Pc.done →
      (run (Action.first :: acts) (two_calls op1 op2 g)).shared
        = (run (without_second (Action.first :: acts)) (two_calls op1 op2 g)).shared ∧
      (run (Action.first :: acts) (two_calls op1 op2 g)).second.pc = Pc.lock) := by
  have h := undisturbed_run acts _ _ (undisturbed_after_lock op1 op2 g hm)
  obtain ⟨h1, _, h3⟩ := h
  refine ⟨h1, fun hd => ?_⟩
  obtain ⟨hg, _, hb⟩ := h3 hd
  exact ⟨hg, hb⟩

/-- Witness of C16: the second call tries to enter three times while the
first one is prompting, testing and sleeping, and a Volume+ press arrives
during the first sleep; the first call is where it would be without the second
call, and it goes on to return true. -/
theorem second_request_cannot_disturb_first_witness :
    ((run (Action.first :: [Action.second, Action.first, Action.first, Action.second,
          Action.first, Action.first, Action.first, Action.second,
          Action.key volume_up_press, Action.second])
        (two_calls "dd".toList "mkfs".toList State.init)).first
      = (run (without_second (Action.first :: [Action.second, Action.first, Action.first,
          Action.second, Action.first, Action.first, Action.first, Action.second,
          Action.key volume_up_press, Action.second]))
        (two_calls "dd".toList "mkfs".toList State.init)).first) ∧
    (run [Action.first, Action.second, Action.first, Action.first, Action.second,
          Action.first, Action.first, Action.first, Action.second,
          Action.key volume_up_press, Action.second,
          Action.first, Action.first, Action.first, Action.first, Action.first]
        (two_calls "dd".toList "mkfs".toList State.init)).first
      = { operation := "dd".toList, pc := Pc.done, timeout := 48, result := true } :=
  ⟨(second_request_cannot_disturb_first "dd".toList "mkfs".toList State.init
      [Action.second, Action.first, Action.first, Action.second,
        Action.first, Action.first, Action.first, Action.second,
        Action.key volume_up_press, Action.second] rfl).1,
   by decide⟩

/-! ### The handlers installed on sys_openat and sys_unlinkat -/

/-- C17 (failing input): `kpm_init` installs `hook_sys_open` on sys_openat and
`hook_sys_unlink` on sys_unlinkat.  For the call
`openat(AT_FDCWD, "/dev/block/by-name/xbl_a", O_WRONLY)` (path at user address
4096) the handler reads the descriptor as the path pointer and the path pointer
as the flags, and returns `0`; the same path and flags through
`open(path, O_WRONLY)` are denied.  Likewise
`unlinkat(AT_FDCWD, "/dev/input/event3", 0)` is allowed while
`unlink("/dev/input/event3")` is denied. -/
theorem openat_handler_classifies_descriptor_not_path :
    installed_handler "sys_openat".toList = some Handler.hook_sys_open ∧
    (run_pre_handler Handler.hook_sys_open (kernel_at 4096 "/dev/block/by-name/xbl_a".toList)
        (fun _ => []) (syscall_regs AT_FDCWD 4096 1) State.init).map Prod.fst = some 0 ∧
    (run_pre_handler Handler.hook_sys_open (kernel_at 4096 "/dev/block/by-name/xbl_a".toList)
        (fun _ => []) (syscall_regs 4096 1 0) State.init).map Prod.fst = some (-EACCES) ∧
    installed_handler "sys_unlinkat".toList = some Handler.hook_sys_unlink ∧
    (run_pre_handler Handler.hook_sys_unlink (kernel_at 4096 "/dev/input/event3".toList)
        (fun _ => []) (syscall_regs AT_FDCWD 4096 0) State.init).map Prod.fst = some 0 ∧
    (run_pre_handler Handler.hook_sys_unlink (kernel_at 4096 "/dev/input/event3".toList)
        (fun _ => []) (syscall_regs 4096 0 0) State.init).map Prod.fst = some (-EACCES) := by
  decide

/-! ### Subjects that fill the scratch buffer -/

theorem strncpy_from_user_long (str adj : List Char) (count : Nat)
    (h : count ≤ str.length) :
    strncpy_from_user (some str) count adj = ((count : Int), str.take count ++ adj) := by
  have hn : ¬ str.length < count := by omega
  simp [strncpy_from_user, hn]

theorem hook_sys_open_long (K : Kernel) (regs : pt_regs) (s : State)
    (adj path : List Char) (hk : K.kmalloc = some adj)
    (hu : K.user (regs.regs 0) = some path) (hlen : PATH_MAX ≤ path.length) :
    (hook_sys_open K regs s).1 =
      if ((to_int (regs.regs 1)).testBit 0 = true ∨ (to_int (regs.regs 1)).testBit 1 = true) ∧
          is_dangerous_partition (some (path.take PATH_MAX ++ adj)) = true
      then -EACCES else 0 := by
  have hn : (((PATH_MAX : Nat) : Int) > 0) := by decide
  simp only [hook_sys_open, hk, hu, strncpy_from_user_long path adj PATH_MAX hlen, hn, if_true,
    land_O_WRONLY_ne_zero, land_O_RDWR_ne_zero]
  by_cases hb : (to_int (regs.regs 1)).testBit 0 = true ∨ (to_int (regs.regs 1)).testBit 1 = true
  · by_cases hd : is_dangerous_partition (some (path.take PATH_MAX ++ adj)) = true
    · simp [hb, hd]
    · simp [hb, hd]
  · simp [hb]

theorem not_dangerous_partition_replicate_a (n : Nat) :
    is_dangerous_partition (some (List.replicate n 'a')) = false := by
  rw [← Bool.not_eq_true]
  show ¬ match_loop (List.replicate n 'a') dangerous_partitions = true
  rw [match_loop_iff]
  rintro ⟨tok, htok, hin⟩
  have hall : ∀ c ∈ tok, c = 'a' := fun c hc =>
    List.eq_of_mem_replicate (hin.subset hc)
  have hsome : ∀ t ∈ tokens dangerous_partitions, ∃ c ∈ t, c ≠ 'a' := by decide
  obtain ⟨c, hc, hne⟩ := hsome tok htok
  exact hne (hall c hc)

/-- C18 (failing input): a subject of 4096 bytes `a` fills the scratch buffer:
`strncpy_from_user` returns `PATH_MAX` and leaves no terminator, so the string
that starts at `kname` runs on into the memory behind the buffer.  The
4096-byte leading part contains no token, yet with the bytes "xbl_a" behind the
buffer a write open is denied, and with a NUL behind it the same open is
allowed: the verdict is not that of the truncated subject. -/
theorem hook_sys_open_reads_past_full_buffer :
    strncpy_from_user (some (List.replicate 4096 'a')) PATH_MAX "xbl_a".toList
      = ((4096 : Int), List.replicate 4096 'a' ++ "xbl_a".toList) ∧
    is_dangerous_partition (some ((List.replicate 4096 'a').take PATH_MAX)) = false ∧
    (hook_sys_open { kmalloc := some "xbl_a".toList,
                     user := fun _ => some (List.replicate 4096 'a') }
        (regs_with 1) State.init).1 = -EACCES ∧
    (hook_sys_open { kmalloc := some [], user := fun _ => some (List.replicate 4096 'a') }
        (regs_with 1) State.init).1 = 0 := by
  have hlen : PATH_MAX ≤ (List.replicate 4096 'a').length := by
    rw [List.length_replicate]
    exact Nat.le_refl _
  have htake : (List.replicate 4096 'a').take PATH_MAX = List.replicate 4096 'a' :=
    List.take_of_length_le (by rw [List.length_replicate]; exact Nat.le_refl _)
  have hbits : (to_int ((regs_with 1).regs 1)).testBit 0 = true ∨
      (to_int ((regs_with 1).regs 1)).testBit 1 = true := Or.inl (by decide)
  refine ⟨?_, ?_, ?_, ?_⟩
  · rw [strncpy_from_user_long _ _ _ hlen, htake]
    rfl
  · rw [htake]
    exact not_dangerous_partition_replicate_a 4096
  · rw [hook_sys_open_long _ (regs_with 1) State.init "xbl_a".toList (List.replicate 4096 'a')
      rfl rfl hlen, htake]
    have hd : is_dangerous_partition
        (some (List.replicate 4096 'a' ++ "xbl_a".toList)) = true := by
      show match_loop _ dangerous_partitions = true
      rw [match_loop_iff]
      exact ⟨"xbl_a".toList, by decide, List.replicate 4096 'a', [], List.append_nil _⟩
    rw [if_pos ⟨hbits, hd⟩]
  · rw [hook_sys_open_long _ (regs_with 1) State.init [] (List.replicate 4096 'a')
      rfl rfl hlen, htake, List.append_nil, not_dangerous_partition_replicate_a 4096]
    simp

/-! ### Independence from earlier cycles -/

theorem wait_result_eq (operation : List Char) (sched : Nat → List input_event) (s : State)
    (hm : s.confirm_mutex = false) :
    (wait_for_user_confirmation operation sched s).map WaitOutcome.result =
      some (match first_response sched with
            | some e => decide (e.code = KEY_VOLUMEUP)
            | none => false) := by
  rw [wait_for_user_confirmation_eq operation sched s hm, Option.map_some']
  congr 1
  show (wait_loop sched 50 0 (prompted operation s)).2.user_confirmed = _
  cases hf : first_response sched with
  | some e =>
    exact (wait_loop_response sched 50 0 _ e (prompted_waiting operation s).1 hf).2.1
  | none =>
    rw [wait_loop_no_response sched 50 0 _ (prompted_waiting operation s).1 hf]
    exact (prompted_waiting operation s).2

/-- C19: for any two initial values of `waiting_for_input` and
`user_confirmed` (and of the log) and the same events delivered during the
wait, the two calls return, and return the same result; and a call that
starts with `user_confirmed = true` left over and receives no volume key-down
event during its 50 sleeps returns false. -/
theorem wait_result_independent_of_leftover_flags (operation : List Char)
    (sched : Nat → List input_event) (w1 c1 w2 c2 : Bool)
    (log1 log2 : List (LogLevel × List Char)) :
    (∃ b, (wait_for_user_confirmation operation sched
            { waiting_for_input := w1, user_confirmed := c1, confirm_mutex := false,
              klog := log1 }).map WaitOutcome.result = some b ∧
          (wait_for_user_confirmation operation sched
            { waiting_for_input := w2, user_confirmed := c2, confirm_mutex := false,
              klog := log2 }).map WaitOutcome.result = some b) ∧
    ((∀ k, k < 50 → ∀ e ∈ sched k, is_volume_key_down e = false) →
      (wait_for_user_confirmation operation sched
        { waiting_for_input := w1, user_confirmed := true, confirm_mutex := false,
          klog := log1 }).map WaitOutcome.result = some false) := by
  refine ⟨⟨_, wait_result_eq operation sched _ rfl, wait_result_eq operation sched _ rfl⟩, ?_⟩
  intro h
  have hnone : first_response sched = none := by
    unfold first_response
    rw [List.find?_eq_none]
    intro e he
    obtain ⟨i, _, hi, hmem⟩ := (mem_polled_events sched e 0 50).mp he
    simp [h i (by omega) e hmem]
  rw [wait_result_eq operation sched _ rfl, hnone]

/-- Witness of C19: with only a key-up event delivered, a call that finds
`user_confirmed = true` left over returns false. -/
theorem wait_result_independent_of_leftover_flags_witness :
    (wait_for_user_confirmation "rm".toList
        (schedule_at 5 [{ type := EV_KEY, code := KEY_VOLUMEUP, value := 0 }])
        { waiting_for_input := false, user_confirmed := true, confirm_mutex := false,
          klog := [] }).map WaitOutcome.result = some false :=
  (wait_result_independent_of_leftover_flags "rm".toList
    (schedule_at 5 [{ type := EV_KEY, code := KEY_VOLUMEUP, value := 0 }])
    false true true false [] []).2 (by
      intro k _ e he
      unfold schedule_at at he
      split at he
      · simp only [List.mem_singleton] at he
        subst he
        decide
      · simp at he)

/-! ### Failed or empty copies, and the range of the return values -/

theorem hook_sys_open_ret_range (K : Kernel) (regs : pt_regs) (s : State) :
    (hook_sys_open K regs s).1 = 0 ∨ (hook_sys_open K regs s).1 = -EACCES := by
  unfold hook_sys_open
  cases K.kmalloc with
  | none => exact Or.inl rfl
  | some adj =>
    simp only
    split
    · split
      · split
        · exact Or.inr rfl
        · exact Or.inl rfl
      · exact Or.inl rfl
    · exact Or.inl rfl

theorem hook_sys_unlink_ret_range (K : Kernel) (regs : pt_regs) (s : State) :
    (hook_sys_unlink K regs s).1 = 0 ∨ (hook_sys_unlink K regs s).1 = -EACCES := by
  unfold hook_sys_unlink
  cases K.kmalloc with
  | none => exact Or.inl rfl
  | some adj =>
    simp only
    split
    · split
      · exact Or.inr rfl
      · exact Or.inl rfl
    · exact Or.inl rfl

theorem hook_sys_execve_ret_range (K : Kernel) (sched : Nat → List input_event)
    (regs : pt_regs) (s : State) (r : Int × State)
    (h : hook_sys_execve K sched regs s = some r) : r.1 = 0 ∨ r.1 = -EACCES := by
  unfold hook_sys_execve at h
  cases hk : K.kmalloc with
  | none =>
    simp only [hk] at h
    rw [← Option.some.inj h]; exact Or.inl rfl
  | some adj =>
    simp only [hk] at h
    split at h
    · split at h
      · split at h
        · exact absurd h (by simp)
        · split at h
          · rw [← Option.some.inj h]; exact Or.inr rfl
          · rw [← Option.some.inj h]; exact Or.inl rfl
      · rw [← Option.some.inj h]; exact Or.inl rfl
    · rw [← Option.some.inj h]; exact Or.inl rfl

/-- C20: for each of the three hooks, when the buffer was allocated and
`strncpy_from_user` returns a value `<= 0` (a fault, or an empty string), the
hook returns `0` for every register contents (so for every flags value) and
leaves the module state as it was (no matcher verdict is acted on, nothing is
logged, no confirmation is started); and for every input whatsoever each hook
returns `0` or `-EACCES`. -/
theorem hooks_allow_when_copy_fails (K : Kernel) (sched : Nat → List input_event)
    (regs : pt_regs) (s : State) (adj : List Char) (hk : K.kmalloc = some adj)
    (hcopy : (strncpy_from_user (K.user (regs.regs 0)) PATH_MAX adj).1 ≤ 0) :
    hook_sys_open K regs s = (0, s) ∧
    hook_sys_execve K sched regs s = some (0, s) ∧
    hook_sys_unlink K regs s = (0, s) ∧
    (∀ (K1 : Kernel) (regs1 : pt_regs) (s1 : State),
      (hook_sys_open K1 regs1 s1).1 = 0 ∨ (hook_sys_open K1 regs1 s1).1 = -EACCES) ∧
    (∀ (K1 : Kernel) (sched1 : Nat → List input_event) (regs1 : pt_regs) (s1 : State)
        (r : Int × State),
      hook_sys_execve K1 sched1 regs1 s1 = some r → r.1 = 0 ∨ r.1 = -EACCES) ∧
    (∀ (K1 : Kernel) (regs1 : pt_regs) (s1 : State),
      (hook_sys_unlink K1 regs1 s1).1 = 0 ∨ (hook_sys_unlink K1 regs1 s1).1 = -EACCES) := by
  have hn : ¬ (strncpy_from_user (K.user (regs.regs 0)) PATH_MAX adj).1 > 0 := by omega
  refine ⟨?_, ?_, ?_, hook_sys_open_ret_range, hook_sys_execve_ret_range,
    hook_sys_unlink_ret_range⟩
  · simp only [hook_sys_open, hk]
    rw [if_neg hn]
  · simp only [hook_sys_execve, hk]
    rw [if_neg hn]
  · simp only [hook_sys_unlink, hk]
    rw [if_neg hn]

/-- Witness of C20: when reading the user string faults, a write open, an
execve and an unlink are all allowed; so are they for an empty string. -/
theorem hooks_allow_when_copy_fails_witness :
    hook_sys_open { kmalloc := some [], user := fun _ => none } (regs_with 3) State.init
      = (0, State.init) ∧
    hook_sys_execve { kmalloc := some [], user := fun _ => none } (fun _ => []) (regs_with 3)
        State.init = some (0, State.init) ∧
    hook_sys_unlink { kmalloc := some [], user := fun _ => some [] } (regs_with 3) State.init
      = (0, State.init) :=
  ⟨(hooks_allow_when_copy_fails { kmalloc := some [], user := fun _ => none } (fun _ => [])
      (regs_with 3) State.init [] rfl (by decide)).1,
   (hooks_allow_when_copy_fails { kmalloc := some [], user := fun _ => none } (fun _ => [])
      (regs_with 3) State.init [] rfl (by decide)).2.1,
   (hooks_allow_when_copy_fails { kmalloc := some [], user := fun _ => some [] } (fun _ => [])
      (regs_with 3) State.init [] rfl (by decide)).2.2.1⟩

/-! ### A response that arrives between the two flag writes -/

/-- C6 (failing input): the call takes the mutex and executes line 78
(`waiting_for_input = true`); a Volume+ key-down event is then delivered, and
the notifier, which takes no lock, records it (`user_confirmed = true`,
`waiting_for_input = false`, "User confirmed operation" logged); the call goes
on with line 79 (`user_confirmed = false`), finds `waiting_for_input` cleared
at its first loop test and returns false, with no sleep made.  The same press
delivered right after line 79 makes the call return true. -/
theorem volume_up_between_flag_writes_is_lost :
    (run [Action.first, Action.first, Action.key volume_up_press, Action.first,
          Action.first, Action.first, Action.first, Action.first, Action.first, Action.first]
        (two_calls "dd".toList "mkfs".toList State.init)).first
      = { operation := "dd".toList, pc := Pc.done, timeout := 49, result := false } ∧
    (LogLevel.info, "[AntiWipe] User confirmed operation\n".toList) ∈
      (run [Action.first, Action.first, Action.key volume_up_press, Action.first,
            Action.first, Action.first, Action.first, Action.first, Action.first, Action.first]
        (two_calls "dd".toList "mkfs".toList State.init)).shared.klog ∧
    (run [Action.first, Action.first, Action.first, Action.key volume_up_press,
          Action.first, Action.first, Action.first, Action.first, Action.first, Action.first]
        (two_calls "dd".toList "mkfs".toList State.init)).first
      = { operation := "dd".toList, pc := Pc.done, timeout := 49, result := true } := by
  decide

end AntiWipe
